import Mathlib

set_option maxRecDepth 8000

/-!
A shallow embedding of the document question-answering core of
`streamlit_app.py` from the QA-System repository: the `txt` text extractor,
the upload dispatcher `load_data_from_upload`, and the keyword-overlap
answer function `simple_qa_system`.  Python strings are modelled as lists of
characters, and the Python string methods used by the source (`split`,
`strip`, `lower`, `join`) are embedded as functions on `List Char`.
-/

/-- Python strings are modelled as lists of characters. -/
abbrev Str := List Char

/-- Python whitespace test for one character: the characters stripped by
`str.strip()` and used as separators by no-argument `str.split()`
(space, \t..\r, \x1c..\x1f, \x85, \xa0, U+1680, U+2000..U+200A,
U+2028, U+2029, U+202F, U+205F, U+3000). -/
def pyIsSpace (c : Char) : Bool :=
  decide (c.toNat = 32 ∨ (9 ≤ c.toNat ∧ c.toNat ≤ 13) ∨
    (28 ≤ c.toNat ∧ c.toNat ≤ 31) ∨ c.toNat = 133 ∨ c.toNat = 160 ∨
    c.toNat = 5760 ∨ (8192 ≤ c.toNat ∧ c.toNat ≤ 8202) ∨ c.toNat = 8232 ∨
    c.toNat = 8233 ∨ c.toNat = 8239 ∨ c.toNat = 8287 ∨ c.toNat = 12288)

/-- Python `str.lower` on one character, for the ASCII letters that occur in
the program's inputs (non-ASCII letters are left unchanged). -/
def pyLowerChar (c : Char) : Char :=
  if 65 ≤ c.toNat ∧ c.toNat ≤ 90 then Char.ofNat (c.toNat + 32) else c

/-- Python `str.lower`. -/
def lower (s : Str) : Str := s.map pyLowerChar

/-- Python `str.strip()` with no argument: remove leading and trailing
whitespace. -/
def strip (s : Str) : Str :=
  ((s.dropWhile pyIsSpace).reverse.dropWhile pyIsSpace).reverse

/-- Python `str.split(sep)` for a one-character separator `sep`: split at
every occurrence of `sep`, keeping empty fragments. -/
def splitOnChar (sep : Char) : Str → List Str
  | [] => [[]]
  | c :: cs =>
    if c = sep then [] :: splitOnChar sep cs
    else
      match splitOnChar sep cs with
      | [] => [[c]]
      | t :: ts => (c :: t) :: ts

/-- Split at every character satisfying `p`, keeping empty fragments. -/
def splitPred (p : Char → Bool) : Str → List Str
  | [] => [[]]
  | c :: cs =>
    if p c then [] :: splitPred p cs
    else
      match splitPred p cs with
      | [] => [[c]]
      | t :: ts => (c :: t) :: ts

/-- Python `str.split()` with no argument: split on runs of whitespace and
discard empty fragments. -/
def splitWs (s : Str) : List Str :=
  (splitPred pyIsSpace s).filter (fun t => !t.isEmpty)

/-- Python `'sep'.join(parts)`. -/
def joinSep (sep : Str) : List Str → Str
  | [] => []
  | [s] => s
  | s :: rest => s ++ sep ++ joinSep sep rest

/-- The fixed missing-input prompt returned by `simple_qa_system`
(line 110 of `streamlit_app.py`). -/
def promptMsg : Str := ("Please upload a document and ask a question.").data

/-- The apostrophe character. -/
def apos : Char := Char.ofNat 39

/-- The fixed no-match fallback message returned by `simple_qa_system`
(line 136 of `streamlit_app.py`). -/
def fallbackMsg : Str :=
  ("I couldn").data ++ [apos] ++
  ("t find specific information related to your question in the document. Try rephrasing your question or check if the document contains the information you").data ++
  [apos] ++ ("re looking for.").data

/-- The separator `'. '` used when joining the top sentences (line 134). -/
def sepDot : Str := (". ").data

/-- Line 116: `[s.strip() for s in document_text.split('.') if s.strip()]` —
the SentenceUnit list of a document. -/
def sentences (d : Str) : List Str :=
  ((splitOnChar ('.') d).map strip).filter (fun t => !t.isEmpty)

/-- Line 119: `set(question_lower.split())` where
`question_lower = question.lower()`. -/
def questionWords (q : Str) : Finset Str := (splitWs (lower q)).toFinset

/-- Line 123: `set(sentence.lower().split())`. -/
def sentenceWords (s : Str) : Finset Str := (splitWs (lower s)).toFinset

/-- Lines 120-128: the scoring loop.  A sentence is emitted, paired with
`len(common_words) / len(question_words)` as an exact rational
(`mkRat k n` is the rational number `k / n`), exactly when its word set
meets the question word set. -/
def relevantSentences (d q : Str) : List (Str × ℚ) :=
  (sentences d).filterMap (fun s =>
    let common := questionWords q ∩ sentenceWords s
    if 0 < common.card then
      some (s, mkRat common.card (questionWords q).card)
    else none)

/-- One insertion step of a stable descending sort by score: `x` is placed
after every earlier element with a strictly greater score and before the
first element whose score is not strictly greater. -/
def insertDesc (x : Str × ℚ) : List (Str × ℚ) → List (Str × ℚ)
  | [] => [x]
  | y :: ys => if x.2 < y.2 then y :: insertDesc x ys else x :: y :: ys

/-- Line 132: `relevant_sentences.sort(key=lambda x: x[1], reverse=True)` —
a stable sort, descending by score; equal scores keep their original order.
Any stable sort computes the same list, so an insertion sort embeds it. -/
def sortDesc : List (Str × ℚ) → List (Str × ℚ)
  | [] => []
  | x :: xs => insertDesc x (sortDesc xs)

/-- Lines 107-136: `simple_qa_system(document_text, question)`.  Empty
document or empty question give the fixed prompt; otherwise the top three
scored sentences (stable descending order) are joined with `'. '` and a
trailing `'.'`, or the fixed fallback is returned when no sentence overlaps
the question. -/
def simple_qa_system (d q : Str) : Str :=
  if d = [] ∨ q = [] then promptMsg
  else
    let rel := relevantSentences d q
    if rel ≠ [] then
      joinSep sepDot (((sortDesc rel).take 3).map Prod.fst) ++ [('.')]
    else fallbackMsg

/-- The messages shown through `st.error` by the extraction layer
(lines 32, 44, 52, 72, 80 of `streamlit_app.py`). -/
inductive UIError where
  | errorReadingPDF : UIError
  | errorReadingDOCX : UIError
  | errorReadingTXT : UIError
  | unsupportedFormat : UIError
  | errorLoadingData : UIError
deriving DecidableEq, Repr

/-- The caller-visible outcome of an extraction step: the returned text and
the list of error messages shown through `st.error` along the way. -/
structure ExtractResult where
  text : Str
  uiErrors : List UIError
deriving DecidableEq, Repr

/-- Python `bytes.decode` with the default strict `utf-8` codec: UTF-8
decoding of a byte sequence, rejecting stray continuation bytes, truncated
sequences, overlong encodings, surrogates and code points beyond U+10FFFF.
`none` models a raised `UnicodeDecodeError`. -/
def utf8Decode : List Nat → Option Str
  | [] => some []
  | b :: bs =>
    if b < 128 then
      match utf8Decode bs with
      | some s => some (Char.ofNat b :: s)
      | none => none
    else if b < 194 then none
    else if b < 224 then
      match bs with
      | [] => none
      | b1 :: bs1 =>
        if 128 ≤ b1 ∧ b1 < 192 then
          match utf8Decode bs1 with
          | some s => some (Char.ofNat ((b - 192) * 64 + (b1 - 128)) :: s)
          | none => none
        else none
    else if b < 240 then
      match bs with
      | b1 :: b2 :: bs2 =>
        if (if b = 224 then 160 ≤ b1 ∧ b1 < 192
            else if b = 237 then 128 ≤ b1 ∧ b1 < 160
            else 128 ≤ b1 ∧ b1 < 192) ∧ (128 ≤ b2 ∧ b2 < 192) then
          match utf8Decode bs2 with
          | some s =>
            some (Char.ofNat ((b - 224) * 4096 + (b1 - 128) * 64 + (b2 - 128)) :: s)
          | none => none
        else none
      | _ => none
    else if b < 245 then
      match bs with
      | b1 :: b2 :: b3 :: bs3 =>
        if (if b = 240 then 144 ≤ b1 ∧ b1 < 192
            else if b = 244 then 128 ≤ b1 ∧ b1 < 144
            else 128 ≤ b1 ∧ b1 < 192) ∧ (128 ≤ b2 ∧ b2 < 192) ∧
            (128 ≤ b3 ∧ b3 < 192) then
          match utf8Decode bs3 with
          | some s =>
            some (Char.ofNat ((b - 240) * 262144 + (b1 - 128) * 4096 +
              (b2 - 128) * 64 + (b3 - 128)) :: s)
          | none => none
        else none
      | _ => none
    else none

/-- Lines 47-53: `extract_text_from_txt`.  `file.read().decode('utf-8')` is
returned on success; a `UnicodeDecodeError` is caught by the
`except Exception` handler, which shows an error through `st.error` and
returns the empty string. -/
def extract_text_from_txt (content : List Nat) : ExtractResult :=
  match utf8Decode content with
  | some s => ⟨s, []⟩
  | none => ⟨[], [UIError.errorReadingTXT]⟩

/-- Line 63: `uploaded_file.name.split('.')[-1].lower()`. -/
def fileExtension (name : Str) : Str :=
  lower ((splitOnChar ('.') name).getLastD [])

/-- Lines 55-81: `load_data_from_upload`.  The PDF and DOCX extractors wrap
external parsing libraries (`PyPDF2`, `python-docx`) and are taken as
parameters; a `None` upload returns the empty string; an extension other
than `pdf`, `docx`, `txt` shows "Unsupported file format" through
`st.error` and returns the empty string. -/
def load_data_from_upload (extractPdf extractDocx : List Nat → ExtractResult)
    (uploaded : Option (Str × List Nat)) : ExtractResult :=
  match uploaded with
  | none => ⟨[], []⟩
  | some (name, content) =>
    let ext := fileExtension name
    if ext = ("pdf").data then extractPdf content
    else if ext = ("docx").data then extractDocx content
    else if ext = ("txt").data then extract_text_from_txt content
    else ⟨[], [UIError.unsupportedFormat]⟩

/-- Lines 166-209 of `main`: the uploaded file is extracted, the text is
stored in the session state, and the question-answering section (and so
`simple_qa_system`) runs only when the stored text is non-empty and a
non-empty question was entered; `none` means the composer is never
invoked. -/
def pipelineAnswer (extractPdf extractDocx : List Nat → ExtractResult)
    (uploaded : Option (Str × List Nat)) (question : Str) : Option Str :=
  let r := load_data_from_upload extractPdf extractDocx uploaded
  if r.text ≠ [] ∧ question ≠ [] then some (simple_qa_system r.text question)
  else none

/-- The sentence texts of the top three scored sentences, in the order the
answer concatenates them (line 133). -/
def topTexts (d q : Str) : List Str :=
  ((sortDesc (relevantSentences d q)).take 3).map Prod.fst

theorem insertDesc_length (x : Str × ℚ) (l : List (Str × ℚ)) :
    (insertDesc x l).length = l.length + 1 := by
  induction l with
  | nil => rfl
  | cons y ys ih =>
    simp only [insertDesc]
    split <;> simp [ih]

theorem sortDesc_length (l : List (Str × ℚ)) : (sortDesc l).length = l.length := by
  induction l with
  | nil => rfl
  | cons x xs ih => simp [sortDesc, insertDesc_length, ih]

theorem mem_insertDesc {z x : Str × ℚ} {l : List (Str × ℚ)} :
    z ∈ insertDesc x l ↔ z = x ∨ z ∈ l := by
  induction l with
  | nil => simp [insertDesc]
  | cons y ys ih =>
    simp only [insertDesc]
    split
    · simp only [List.mem_cons, ih, List.mem_cons]
      tauto
    · simp only [List.mem_cons]

theorem insertDesc_pairwise {x : Str × ℚ} {l : List (Str × ℚ)}
    (h : l.Pairwise (fun a b => b.2 ≤ a.2)) :
    (insertDesc x l).Pairwise (fun a b => b.2 ≤ a.2) := by
  induction l with
  | nil => simp [insertDesc]
  | cons y ys ih =>
    rcases List.pairwise_cons.1 h with ⟨hy, hys⟩
    simp only [insertDesc]
    split
    · rename_i hlt
      refine List.pairwise_cons.2 ⟨?_, ih hys⟩
      intro z hz
      rcases mem_insertDesc.1 hz with rfl | hz
      · exact le_of_lt hlt
      · exact hy z hz
    · rename_i hge
      refine List.pairwise_cons.2 ⟨?_, h⟩
      intro z hz
      rcases List.mem_cons.1 hz with rfl | hz
      · exact le_of_not_lt hge
      · exact le_trans (hy z hz) (le_of_not_lt hge)

theorem sortDesc_sorted (l : List (Str × ℚ)) :
    (sortDesc l).Pairwise (fun a b => b.2 ≤ a.2) := by
  induction l with
  | nil => simp [sortDesc]
  | cons x xs ih => exact insertDesc_pairwise ih

theorem insertDesc_filter (x : Str × ℚ) (l : List (Str × ℚ)) (c : ℚ) :
    (insertDesc x l).filter (fun p => decide (p.2 = c)) =
      if x.2 = c then x :: l.filter (fun p => decide (p.2 = c))
      else l.filter (fun p => decide (p.2 = c)) := by
  induction l with
  | nil =>
    simp only [insertDesc, List.filter_cons, List.filter_nil]
    split <;> simp_all
  | cons y ys ih =>
    simp only [insertDesc]
    split
    · rename_i hlt
      by_cases hx : x.2 = c
      · have hy : ¬ (y.2 = c) := by
          intro hyc
          rw [hx] at hlt
          rw [hyc] at hlt
          exact lt_irrefl c hlt
        simp [List.filter_cons, hx, hy, ih]
      · simp [List.filter_cons, hx, ih]
    · simp only [List.filter_cons]
      split <;> simp_all [List.filter_cons]

theorem sortDesc_filter (l : List (Str × ℚ)) (c : ℚ) :
    (sortDesc l).filter (fun p => decide (p.2 = c)) =
      l.filter (fun p => decide (p.2 = c)) := by
  induction l with
  | nil => rfl
  | cons x xs ih =>
    simp only [sortDesc, insertDesc_filter, ih, List.filter_cons]
    split <;> simp_all

theorem mem_relevantSentences {d q : Str} {p : Str × ℚ}
    (hp : p ∈ relevantSentences d q) :
    p.1 ∈ sentences d ∧ 0 < (questionWords q ∩ sentenceWords p.1).card ∧
      p.2 = mkRat (questionWords q ∩ sentenceWords p.1).card (questionWords q).card := by
  rcases List.mem_filterMap.1 hp with ⟨s, hs, hf⟩
  by_cases hc : 0 < (questionWords q ∩ sentenceWords s).card
  · simp only [hc, if_pos] at hf
    cases hf
    exact ⟨hs, hc, rfl⟩
  · simp [hc] at hf

theorem relevant_score_bounds {d q : Str} {p : Str × ℚ}
    (hp : p ∈ relevantSentences d q) :
    0 < p.2 ∧ p.2 ≤ 1 ∧ 0 < (questionWords q).card := by
  rcases mem_relevantSentences hp with ⟨-, hc, hscore⟩
  have hsub : (questionWords q ∩ sentenceWords p.1) ⊆ questionWords q :=
    Finset.inter_subset_left
  have hle : (questionWords q ∩ sentenceWords p.1).card ≤ (questionWords q).card :=
    Finset.card_le_card hsub
  have hqpos : 0 < (questionWords q).card := lt_of_lt_of_le hc hle
  have hdiv : p.2 = ((questionWords q ∩ sentenceWords p.1).card : ℚ) /
      ((questionWords q).card : ℚ) := by
    rw [hscore, Rat.mkRat_eq_div]
    push_cast
    ring
  have hqpos' : (0 : ℚ) < ((questionWords q).card : ℚ) := by exact_mod_cast hqpos
  have hcpos' : (0 : ℚ) < ((questionWords q ∩ sentenceWords p.1).card : ℚ) := by
    exact_mod_cast hc
  have hle' : ((questionWords q ∩ sentenceWords p.1).card : ℚ) ≤
      ((questionWords q).card : ℚ) := by exact_mod_cast hle
  refine ⟨?_, ?_, hqpos⟩
  · rw [hdiv]
    exact div_pos hcpos' hqpos'
  · rw [hdiv]
    exact (div_le_one hqpos').2 hle'

theorem pyIsSpace_lower (c : Char) (h : pyIsSpace c = true) :
    pyLowerChar c = c := by
  simp only [pyIsSpace, decide_eq_true_eq] at h
  simp only [pyLowerChar]
  rw [if_neg]
  omega

theorem strip_eq_nil_all_space {s : Str} (h : strip s = []) :
    ∀ c ∈ s, pyIsSpace c = true := by
  have h1 : (s.dropWhile pyIsSpace).reverse.dropWhile pyIsSpace = [] := by
    simpa [strip, List.reverse_eq_nil_iff] using h
  have h2 : ∀ c ∈ (s.dropWhile pyIsSpace).reverse, pyIsSpace c = true :=
    List.dropWhile_eq_nil_iff.mp h1
  intro c hc
  rw [← List.takeWhile_append_dropWhile pyIsSpace s] at hc
  rcases List.mem_append.1 hc with hc | hc
  · exact List.mem_takeWhile_imp hc
  · exact h2 c (List.mem_reverse.2 hc)

theorem splitPred_all_nil {p : Char → Bool} {s : Str}
    (h : ∀ c ∈ s, p c = true) : ∀ t ∈ splitPred p s, t = [] := by
  induction s with
  | nil =>
    intro t ht
    simpa [splitPred] using ht
  | cons c cs ih =>
    intro t ht
    have hc : p c = true := h c (List.mem_cons_self c cs)
    simp only [splitPred, hc, if_pos] at ht
    rcases List.mem_cons.1 ht with rfl | ht
    · rfl
    · exact ih (fun x hx => h x (List.mem_cons_of_mem c hx)) t ht

theorem splitWs_all_space {s : Str} (h : ∀ c ∈ s, pyIsSpace c = true) :
    splitWs s = [] := by
  apply List.filter_eq_nil_iff.2
  intro t ht
  have := splitPred_all_nil h t ht
  subst this
  simp

theorem questionWords_empty_of_space {q : Str} (h : strip q = []) :
    questionWords q = ∅ := by
  have hall : ∀ c ∈ q, pyIsSpace c = true := strip_eq_nil_all_space h
  have hlow : ∀ c ∈ lower q, pyIsSpace c = true := by
    intro c hc
    rcases List.mem_map.1 hc with ⟨c0, hc0, rfl⟩
    rw [pyIsSpace_lower c0 (hall c0 hc0)]
    exact hall c0 hc0
  simp [questionWords, splitWs_all_space hlow]

theorem relevantSentences_of_no_questionWords {d q : Str}
    (h : questionWords q = ∅) : relevantSentences d q = [] := by
  apply List.filterMap_eq_nil_iff.2
  intro s hs
  simp [h]

theorem splitOnChar_eq_of_not_mem {sep : Char} {s : Str} (h : sep ∉ s) :
    splitOnChar sep s = [s] := by
  induction s with
  | nil => rfl
  | cons c cs ih =>
    have hc : ¬ (c = sep) := by
      intro hc
      exact h (hc ▸ List.mem_cons_self c cs)
    have hcs : sep ∉ cs := fun hm => h (List.mem_cons_of_mem c hm)
    simp [splitOnChar, hc, ih hcs]

/-- Claim C1 is refuted by the code on its own example: tokenization keeps
punctuation attached, so the question token is `grass?`, not `grass`, and
the sentence "Grass is green" shares only `is` with the question; the
answer is not "Grass is green.". -/
theorem c1_counterexample :
    ¬ (simple_qa_system (("The sky is blue. Grass is green. Water is wet.").data)
        (("What color is grass?").data) = ("Grass is green.").data) := by
  decide

/-- Claim C1 (amended): for D = "The sky is blue. Grass is green. Water is
wet." and Q = "What color is grass?", every sentence shares exactly one
token (`is`) with the question word set {what, color, is, grass?} and
scores 1/4; the stable sort keeps document order and the answer is all
three sentences: "The sky is blue. Grass is green. Water is wet.". -/
theorem c1_amended :
    relevantSentences (("The sky is blue. Grass is green. Water is wet.").data)
        (("What color is grass?").data) =
      [(("The sky is blue").data, mkRat 1 4), (("Grass is green").data, mkRat 1 4),
        (("Water is wet").data, mkRat 1 4)] ∧
      simple_qa_system (("The sky is blue. Grass is green. Water is wet.").data)
        (("What color is grass?").data) =
        ("The sky is blue. Grass is green. Water is wet.").data := by
  constructor
  · decide
  · decide

/-- Claim C2 is refuted by the code: a whitespace-only question is truthy in
Python, so `simple_qa_system("The sky is blue.", " ")` passes the input
check and returns the no-match fallback, not the missing-input prompt. -/
theorem c2_counterexample :
    strip ((" ").data) = [] ∧
      ¬ (simple_qa_system (("The sky is blue.").data) ((" ").data) = promptMsg) := by
  constructor
  · decide
  · decide

/-- Claim C2 (amended): for every non-empty document and every non-empty
question whose trimmed value is empty, `simple_qa_system` returns the
no-match fallback message (the question word set is empty, so no sentence
is relevant); the missing-input prompt is returned only when the document
or the question is literally the empty string. -/
theorem c2_amended (d q : Str) (hd : d ≠ []) (hq : q ≠ [])
    (hstrip : strip q = []) : simple_qa_system d q = fallbackMsg := by
  have hrel : relevantSentences d q = [] :=
    relevantSentences_of_no_questionWords (questionWords_empty_of_space hstrip)
  simp [simple_qa_system, hd, hq, hrel]

/-- Witness for the amended claim C2 at D = "a", Q = " ". -/
theorem c2_amended_witness :
    (("a").data ≠ ([] : Str)) ∧ ((" ").data ≠ ([] : Str)) ∧
      strip ((" ").data) = [] ∧
      simple_qa_system (("a").data) ((" ").data) = fallbackMsg :=
  ⟨by decide, by decide, by decide,
    c2_amended _ _ (by decide) (by decide) (by decide)⟩

/-- Claim C3: for every question, `simple_qa_system("", Q)` is the fixed
missing-input prompt, and for every document, `simple_qa_system(D, "")` is
that same prompt. -/
theorem c3_missing_inputs :
    (∀ q : Str, simple_qa_system [] q = promptMsg) ∧
      (∀ d : Str, simple_qa_system d [] = promptMsg) := by
  refine ⟨fun q => ?_, fun d => ?_⟩ <;> simp [simple_qa_system]

/-- Claim C4: for every document and question the scored sequence is sorted
in descending score order; for every score value the subsequence of
sentences with that score is exactly the one of the unsorted sequence, so
ties keep original document order (stable sort); and on D = "Cats are
mammals. Dogs are mammals.", Q = "mammals" both sentences score 1 and the
answer keeps document order. -/
theorem c4_ordering_stable :
    (∀ d q : Str,
        (sortDesc (relevantSentences d q)).Pairwise (fun a b => b.2 ≤ a.2)) ∧
      (∀ (d q : Str) (c : ℚ),
        (sortDesc (relevantSentences d q)).filter (fun p => decide (p.2 = c)) =
          (relevantSentences d q).filter (fun p => decide (p.2 = c))) ∧
      simple_qa_system (("Cats are mammals. Dogs are mammals.").data)
          (("mammals").data) =
        ("Cats are mammals. Dogs are mammals.").data :=
  ⟨fun _ _ => sortDesc_sorted _, fun _ _ c => sortDesc_filter _ c, by decide⟩

/-- Claim C5: every scored sentence has a score in [0, 1], and whenever a
score is produced the question word set is non-empty (the division is
guarded by a non-empty intersection, which is a subset of the question
word set), so the division never has a zero denominator. -/
theorem c5_score_bounds (d q : Str) (p : Str × ℚ)
    (hp : p ∈ relevantSentences d q) :
    (0 ≤ p.2 ∧ p.2 ≤ 1) ∧ 0 < (questionWords q).card := by
  rcases relevant_score_bounds hp with ⟨h1, h2, h3⟩
  exact ⟨⟨le_of_lt h1, h2⟩, h3⟩

/-- Witness for claim C5 at D = "Grass is green.", Q = "grass". -/
theorem c5_score_bounds_witness :
    ((("Grass is green").data, (mkRat 1 1 : ℚ)) ∈
        relevantSentences (("Grass is green.").data) (("grass").data)) ∧
      ((0 ≤ (mkRat 1 1 : ℚ) ∧ (mkRat 1 1 : ℚ) ≤ 1) ∧
        0 < (questionWords (("grass").data)).card) :=
  ⟨by decide,
    c5_score_bounds (("Grass is green.").data) (("grass").data)
      ((("Grass is green").data), (mkRat 1 1 : ℚ)) (by decide)⟩

/-- Claim C6: when the inputs are non-empty and at least one sentence
overlaps the question, the answer is the top-ranked sentence texts joined
with ". " and a single trailing "."; the number of selected texts equals
min(3, number of sentences with positive score). -/
theorem c6_composition (d q : Str) (hd : d ≠ []) (hq : q ≠ [])
    (hrel : relevantSentences d q ≠ []) :
    simple_qa_system d q = joinSep sepDot (topTexts d q) ++ [('.')] ∧
      (topTexts d q).length =
        min 3 (((relevantSentences d q).filter
          (fun p => decide (0 < p.2))).length) := by
  constructor
  · simp [simple_qa_system, hd, hq, hrel, topTexts]
  · have hfil : (relevantSentences d q).filter (fun p => decide (0 < p.2)) =
        relevantSentences d q := by
      apply List.filter_eq_self.2
      intro p hp
      simpa using (relevant_score_bounds hp).1
    rw [hfil]
    simp [topTexts, List.length_take, sortDesc_length]

/-- Witness for claim C6 at D = "Grass is green.", Q = "grass". -/
theorem c6_composition_witness :
    (("Grass is green.").data ≠ ([] : Str)) ∧ (("grass").data ≠ ([] : Str)) ∧
      relevantSentences (("Grass is green.").data) (("grass").data) ≠ [] ∧
      (simple_qa_system (("Grass is green.").data) (("grass").data) =
          joinSep sepDot (topTexts (("Grass is green.").data) (("grass").data)) ++
            [('.')] ∧
        (topTexts (("Grass is green.").data) (("grass").data)).length =
          min 3 (((relevantSentences (("Grass is green.").data)
            (("grass").data)).filter (fun p => decide (0 < p.2))).length)) :=
  ⟨by decide, by decide, by decide,
    c6_composition _ _ (by decide) (by decide) (by decide)⟩

/-- Claim C7 is refuted by the code: on invalid UTF-8 bytes the decode
raises, but `extract_text_from_txt` catches every exception, shows an
error through `st.error` and returns the empty string — the caller
receives an ordinary (empty) string, not a propagated decoding error. -/
theorem c7_counterexample :
    utf8Decode [255] = none ∧
      extract_text_from_txt [255] = ⟨[], [UIError.errorReadingTXT]⟩ := by
  constructor
  · decide
  · decide

/-- Claim C7 (amended): for every byte input that is not valid UTF-8, the
txt extractor reports the decoding failure through `st.error` and returns
the empty string; the error is swallowed, and the caller must treat an
empty document as extraction failure. -/
theorem c7_amended (content : List Nat) (h : utf8Decode content = none) :
    extract_text_from_txt content = ⟨[], [UIError.errorReadingTXT]⟩ := by
  simp [extract_text_from_txt, h]

/-- Witness for the amended claim C7 at the single byte 0xFE. -/
theorem c7_amended_witness :
    utf8Decode [254] = none ∧
      extract_text_from_txt [254] = ⟨[], [UIError.errorReadingTXT]⟩ :=
  ⟨by decide, c7_amended _ (by decide)⟩

/-- Claim C8: for every uploaded file whose extension is not pdf, docx or
txt, `load_data_from_upload` shows the fixed "Unsupported file format"
error and returns the empty text, and the question-answering composer is
never invoked on that upload. -/
theorem c8_unsupported_format (extractPdf extractDocx : List Nat → ExtractResult)
    (name : Str) (content : List Nat) (q : Str)
    (h1 : fileExtension name ≠ ("pdf").data)
    (h2 : fileExtension name ≠ ("docx").data)
    (h3 : fileExtension name ≠ ("txt").data) :
    load_data_from_upload extractPdf extractDocx (some (name, content)) =
        ⟨[], [UIError.unsupportedFormat]⟩ ∧
      pipelineAnswer extractPdf extractDocx (some (name, content)) q = none := by
  have hload : load_data_from_upload extractPdf extractDocx (some (name, content)) =
      ⟨[], [UIError.unsupportedFormat]⟩ := by
    simp [load_data_from_upload, h1, h2, h3]
  refine ⟨hload, ?_⟩
  simp [pipelineAnswer, hload]

/-- Witness for claim C8 at the file name "report.xyz". -/
theorem c8_unsupported_format_witness :
    (fileExtension (("report.xyz").data) ≠ ("pdf").data) ∧
      (fileExtension (("report.xyz").data) ≠ ("docx").data) ∧
      (fileExtension (("report.xyz").data) ≠ ("txt").data) ∧
      (load_data_from_upload (fun _ => ⟨[], []⟩) (fun _ => ⟨[], []⟩)
          (some ((("report.xyz").data), [65])) =
          ⟨[], [UIError.unsupportedFormat]⟩ ∧
        pipelineAnswer (fun _ => ⟨[], []⟩) (fun _ => ⟨[], []⟩)
          (some ((("report.xyz").data), [65])) (("hi").data) = none) :=
  ⟨by decide, by decide, by decide,
    c8_unsupported_format _ _ _ _ _ (by decide) (by decide) (by decide)⟩

/-- Claim C9 is refuted by the code at the whitespace-only document " ":
it contains no period, yet the splitter discards the fragment because it
trims to the empty string, yielding zero SentenceUnits instead of one. -/
theorem c9_counterexample :
    (('.') ∉ ((" ").data)) ∧
      ¬ (sentences ((" ").data) = [strip ((" ").data)]) := by
  constructor
  · decide
  · decide

/-- Claim C9 (amended): a document with no period yields exactly one
SentenceUnit equal to its trimmed text when that trimmed text is
non-empty, and zero SentenceUnits when the document trims to nothing. -/
theorem c9_amended (d : Str) (h : ('.') ∉ d) :
    (strip d ≠ [] → sentences d = [strip d]) ∧
      (strip d = [] → sentences d = []) := by
  have hsplit : splitOnChar ('.') d = [d] := splitOnChar_eq_of_not_mem h
  constructor
  · intro hne
    simp [sentences, hsplit, hne]
  · intro he
    simp [sentences, hsplit, he]

/-- Witness for the amended claim C9 at D = "hello world". -/
theorem c9_amended_witness :
    (('.') ∉ (("hello world").data)) ∧
      ((strip (("hello world").data) ≠ [] →
          sentences (("hello world").data) = [strip (("hello world").data)]) ∧
        (strip (("hello world").data) = [] →
          sentences (("hello world").data) = [])) :=
  ⟨by decide, c9_amended _ (by decide)⟩

/-- Claim C10: a non-empty document whose period-split fragments all trim
to the empty string passes the raw-emptiness input check but produces an
empty sentence list, so for every non-empty question the result is the
no-match fallback message, not the missing-input prompt. -/
theorem c10_degenerate_document (d q : Str) (hd : d ≠ []) (hq : q ≠ [])
    (h : ∀ s ∈ splitOnChar ('.') d, strip s = []) :
    simple_qa_system d q = fallbackMsg := by
  have hsent : sentences d = [] := by
    apply List.filter_eq_nil_iff.2
    intro t ht
    rcases List.mem_map.1 ht with ⟨s, hs, rfl⟩
    simp [h s hs]
  have hrel : relevantSentences d q = [] := by
    simp [relevantSentences, hsent]
  simp [simple_qa_system, hd, hq, hrel]

/-- Witness for claim C10 at D = ". .", Q = "x". -/
theorem c10_degenerate_document_witness :
    ((". .").data ≠ ([] : Str)) ∧ (("x").data ≠ ([] : Str)) ∧
      (∀ s ∈ splitOnChar ('.') ((". .").data), strip s = []) ∧
      simple_qa_system ((". .").data) (("x").data) = fallbackMsg :=
  ⟨by decide, by decide, by decide,
    c10_degenerate_document _ _ (by decide) (by decide) (by decide)⟩
